import Mathlib

/-!
A verification development for the rule-evaluation engine of the
agile anti-pattern scanner (`apply_rules` in `src/agile_tool.py`).

The pandas `DataFrame` is modelled as a header (list of column names)
plus a list of rows (lists of cells).  A cell's runtime kind is one of
missing (NaN/NaT), text, integer number, or datetime.  Numbers are
modelled on the integer fragment (the claims only exercise integer
values, where pandas' float arithmetic is exact).  Datetimes are
modelled as integers counting days, with the ambient `datetime.now()`
passed in as an explicit integer parameter `now`; `timedelta(days=n)`
is then just `n`.  String parsing of dates (`pd.to_datetime` on text)
is abstracted as a parameter `dparse : String → Option Int`; no claim
depends on the concrete calendar parser.

Python exceptions raised during `apply_rules` (KeyError on a missing
`threshold` key, TypeError on `timedelta(days=non-number)` or on
comparing a column against a wrongly-typed threshold, AttributeError
on `.lower()` of a non-string) are modelled with `Except String`; an
error aborts the whole evaluation, exactly as an uncaught Python
exception propagates out of `apply_rules`.  On the error path the
caller-visible mutation of the dataframe is not observed by the model
(no claim inspects the dataframe after an exception).

Python's `re` regular expressions are embedded on the fragment the
engine's patterns exercise in the statements below: literal
characters, the `.` wildcard and top-level `|` alternation.  On this
fragment `re.search` succeeds exactly when some alternative matches
(with `.` matching any single character) at some position of the
text, and `re.IGNORECASE` (`case=False`) coincides with lowercasing
both pattern and text (ASCII).  Patterns containing any other
metacharacter (quantifiers, groups, classes, anchors, escapes — see
`regexMeta`) are outside the fragment and not modelled: every general
theorem below about the regex-based operators carries a `noMeta`
hypothesis confining its patterns to metacharacter-free keywords, and
the concrete counterexamples use only `.`.
-/

/-- Runtime kind of one dataframe cell. -/
inductive Cell where
  | missing : Cell
  | str : String → Cell
  | int : Int → Cell
  | date : Int → Cell
deriving Repr, DecidableEq

/-- An element of a list threshold.  The engine only ever calls
`.lower()` on such an element, so all that is observable is whether it
is a string; non-string elements are collapsed to their number case. -/
inductive JAtom where
  | anum : Int → JAtom
  | astr : String → JAtom
deriving Repr, DecidableEq

/-- JSON-like threshold values carried by a rule's `detection_logic`. -/
inductive JVal where
  | jnum : Int → JVal
  | jstr : String → JVal
  | jlist : List JAtom → JVal
deriving Repr, DecidableEq

/-- One entry of the catalog's `anti_patterns` list.  The descriptive
keys are total (every catalog in scope carries them); `threshold` is
optional so that a missing `threshold` key (KeyError on access) can be
expressed.  `op` is the raw operator string, so unrecognized operators
can be expressed. -/
structure Rule where
  id : String
  name : String
  category : String
  severity : String
  description : String
  remedy : String
  field : String
  op : String
  threshold : Option JVal
deriving Repr, DecidableEq

/-- The dataframe: column names plus rows of cells.  Cell `i` of a row
belongs to column `header[i]`. -/
structure DataFrame where
  header : List String
  rows : List (List Cell)
deriving Repr, DecidableEq

/-- Well-formedness: every row has exactly one cell per column. -/
def dfWF (df : DataFrame) : Bool :=
  df.rows.all (fun row => row.length = df.header.length)

/-- One violation record as appended by `apply_rules` (the dict built
at lines 234-242 of `src/agile_tool.py`).  `row.get` returns the cell
value, hence `issueKey`/`summary` are cells, defaulting to the text
`"Unknown"`. -/
structure Violation where
  issueKey : Cell
  summary : Cell
  antiPattern : String
  category : String
  severity : String
  reason : String
  remedy : String
deriving Repr, DecidableEq

/-- Python `str.lower()` on the ASCII fragment, executable at the
kernel level (character-wise lowering of the underlying characters). -/
def strLower (s : String) : String :=
  ⟨s.data.map Char.toLower⟩

/-- Python `str.strip()`: drop leading and trailing whitespace. -/
def strTrim (s : String) : String :=
  ⟨((s.data.dropWhile Char.isWhitespace).reverse.dropWhile Char.isWhitespace).reverse⟩

def digitsToNatAux : Nat → List Char → Option Nat
  | acc, [] => some acc
  | acc, c :: cs =>
      if c.isDigit then digitsToNatAux (acc * 10 + (c.toNat - 48)) cs else none

def digitsToNat : List Char → Option Nat
  | [] => none
  | cs => digitsToNatAux 0 cs

/-- The integer fragment of Python float parsing as used by
`pd.to_numeric`: optional sign, then decimal digits, surrounding
whitespace ignored; anything else fails to parse. -/
def strToInt? (s : String) : Option Int :=
  match (strTrim s).data with
  | '-' :: ds => (digitsToNat ds).map (fun n => -(n : Int))
  | '+' :: ds => (digitsToNat ds).map (fun n => (n : Int))
  | ds => (digitsToNat ds).map (fun n => (n : Int))

/-- `str(x)` of a cell, as produced by `.astype(str)`: NaN renders as
the literal text `"nan"`.  The rendering of a datetime cell is
abstracted (no claim stringifies a datetime); it is some non-empty
digit string, like the real `str(Timestamp)`. -/
def cellToStr : Cell → String
  | .missing => "nan"
  | .str s => s
  | .int n => toString n
  | .date t => toString t

/-- `pd.notna` on one cell. -/
def notna : Cell → Bool
  | .missing => false
  | _ => true

/-- Elementwise `series == s` for a string literal `s`: only a text
cell can compare equal (NaN, numbers and datetimes compare unequal to
a string, they do not raise). -/
def cellEqStr (c : Cell) (s : String) : Bool :=
  match c with
  | .str t => t = s
  | _ => false

/-- `pd.to_numeric(·, errors='coerce')` on one cell, on the integer
fragment: numbers pass through, numeric text parses, other text and
NaN coerce to missing, a datetime's numeric view is its timestamp. -/
def toNumCell : Cell → Cell
  | .int n => .int n
  | .str s =>
      match strToInt? s with
      | some n => .int n
      | none => .missing
  | .missing => .missing
  | .date t => .int t

/-- `pd.to_datetime(·, errors='coerce')` on one cell: text parses via
the abstract parser `dparse` (unparseable becomes NaT), datetimes pass
through, a number is read as a timestamp, NaN stays NaT. -/
def toDateCell (dparse : String → Option Int) : Cell → Cell
  | .str s =>
      match dparse s with
      | some t => .date t
      | none => .missing
  | .date t => .date t
  | .int n => .date n
  | .missing => .missing

/-- Elementwise `series < cutoff` against a datetime, after the column
has been date-parsed: NaT compares false, a date compares by value; a
text or plain-number cell in a datetime comparison raises TypeError
(as pandas does on an unparsed object column). -/
def cellLtDate (c : Cell) (cutoff : Int) : Except String Bool :=
  match c with
  | .date d => .ok (decide (d < cutoff))
  | .missing => .ok false
  | _ => .error "TypeError: cannot compare with datetime"

/-- Elementwise `series > start` against a datetime. -/
def cellGtDate (c : Cell) (start : Int) : Except String Bool :=
  match c with
  | .date d => .ok (decide (d > start))
  | .missing => .ok false
  | _ => .error "TypeError: cannot compare with datetime"

/-- Elementwise `series > t` after numeric coercion: a missing value
never satisfies the comparison. -/
def cellNumGt (c : Cell) (t : Int) : Bool :=
  match c with
  | .int n => decide (n > t)
  | _ => false

/-- Python `str.split()` word count: number of maximal runs of
non-whitespace characters. -/
def wordCountAux : List Char → Bool → Nat
  | [], _ => 0
  | c :: cs, inWord =>
      if c.isWhitespace then wordCountAux cs false
      else (if inWord then 0 else 1) + wordCountAux cs true

def wordCount (s : String) : Nat :=
  wordCountAux s.data false

/-- `df[field].isnull() | (df[field] == "") | (df[field].astype(str).str.strip() == "")`. -/
def isEmptyCell (c : Cell) : Bool :=
  (match c with | .missing => true | _ => false) ||
  cellEqStr c "" ||
  (strTrim (cellToStr c) = "")

/-- Split a pattern at top-level `|` (Python regex alternation). -/
def splitBar : List Char → List (List Char)
  | [] => [[]]
  | c :: cs =>
      if c = '|' then [] :: splitBar cs
      else
        match splitBar cs with
        | [] => [[c]]
        | p :: ps => (c :: p) :: ps

/-- `'|'.join` on the underlying character lists. -/
def joinBar : List (List Char) → List Char
  | [] => []
  | [p] => p
  | p :: q :: ps => p ++ '|' :: joinBar (q :: ps)

/-- One regex alternative matches a prefix of the text, on the
literal-plus-`.` fragment only: every character except `.` is matched
literally.  Patterns holding any other regex metacharacter are
outside the model; no theorem below applies the model to one. -/
def rxAccept : List Char → List Char → Bool
  | [], _ => true
  | _ :: _, [] => false
  | p :: ps, c :: cs => (p = '.' || p = c) && rxAccept ps cs

/-- One regex alternative matches at some position of the text. -/
def rxSearch (p : List Char) : List Char → Bool
  | [] => rxAccept p []
  | c :: cs => rxAccept p (c :: cs) || rxSearch p cs

/-- Literal-substring prefix match (no wildcard). -/
def litAccept : List Char → List Char → Bool
  | [], _ => true
  | _ :: _, [] => false
  | p :: ps, c :: cs => (p = c) && litAccept ps cs

/-- Literal-substring occurrence at some position. -/
def litSearch (p : List Char) : List Char → Bool
  | [] => litAccept p []
  | c :: cs => litAccept p (c :: cs) || litSearch p cs

/-- `re.search(pattern, text)` truthiness, on the fragment of
patterns built from literals, `.` and top-level `|` only (see
`rxAccept`): some alternative of the pattern matches somewhere. -/
def reSearch (pat text : String) : Bool :=
  (splitBar pat.data).any (fun alt => rxSearch alt text.data)

/-- The spec-side reading of containment: `pat` occurs in `text` as a
case-insensitive literal substring.  (Stated from the spec's words for
comparison with the engine's regex behaviour.) -/
def litContains (text pat : String) : Bool :=
  litSearch (strLower pat).data (strLower text).data

/-- `logic["threshold"]`: raises KeyError when the key is absent. -/
def getThr (r : Rule) : Except String JVal :=
  match r.threshold with
  | some v => .ok v
  | none => .error "KeyError: threshold"

/-- A threshold used as a number (`timedelta(days=·)` or a numeric
comparison): any non-number raises TypeError. -/
def intThreshold (r : Rule) : Except String Int :=
  match getThr r with
  | .error e => .error e
  | .ok (.jnum n) => .ok n
  | .ok _ => .error "TypeError: threshold is not a number"

/-- `str(threshold)` (Python's rendering; only the string case is
exercised by any statement below). -/
def jvalToStr : JVal → String
  | .jstr s => s
  | .jnum n => toString n
  | .jlist _ => "[...]"

/-- `x.lower()` over the elements of a list, left to right: the first
non-string element raises AttributeError. -/
def lowerAtoms : List JAtom → Except String (List String)
  | [] => .ok []
  | .astr s :: rest =>
      match lowerAtoms rest with
      | .error e => .error e
      | .ok l => .ok (strLower s :: l)
  | .anum _ :: _ => .error "AttributeError: lower"

/-- `[x.lower() for x in threshold]`: a list lowers each string
element (AttributeError on a non-string element), a string iterates
its characters, a number is not iterable (TypeError). -/
def lowerKeywords : JVal → Except String (List String)
  | .jlist l => lowerAtoms l
  | .jstr s => .ok (s.data.map (fun c => String.singleton c.toLower))
  | .jnum _ => .error "TypeError: not iterable"

/-- Column lookup: index of a name in the header. -/
def colIdx (header : List String) (name : String) : Option Nat :=
  header.findIdx? (· = name)

/-- Read the named cell of a row (missing when the column is absent,
which never happens on the paths guarded by the engine). -/
def getCellD (header : List String) (row : List Cell) (name : String) : Cell :=
  match colIdx header name with
  | some i => row.getD i .missing
  | none => .missing

/-- `row.get(name, default)`. -/
def rowGetD (header : List String) (row : List Cell) (name : String) (dflt : Cell) : Cell :=
  match colIdx header name with
  | some i => row.getD i .missing
  | none => dflt

/-- `df[name] = df[name].map f`: replace a column in place. -/
def mapCol (df : DataFrame) (name : String) (f : Cell → Cell) : DataFrame :=
  match colIdx df.header name with
  | some i => ⟨df.header, df.rows.map (fun row => row.set i (f (row.getD i .missing)))⟩
  | none => df

/-- `df[field] = pd.to_numeric(df[field], errors='coerce')`. -/
def coerceNumericCol (df : DataFrame) (name : String) : DataFrame :=
  mapCol df name toNumCell

/-- The date-parsing loop at the top of `apply_rules`: each of
`Updated`, `Created`, `Resolved` that is present is re-assigned its
`pd.to_datetime(·, errors='coerce')` image. -/
def parseDates (dparse : String → Option Int) (df : DataFrame) : DataFrame :=
  ["Updated", "Created", "Resolved"].foldl
    (fun d col => if col ∈ d.header then mapCol d col (toDateCell dparse) else d) df

/-- Effectful filter: pandas boolean masking where evaluating the
predicate can raise; the first raising cell aborts, row order is kept. -/
def filterE (p : List Cell → Except String Bool) : List (List Cell) → Except String (List (List Cell))
  | [] => .ok []
  | row :: rest =>
      match p row with
      | .error e => .error e
      | .ok b =>
          match filterE p rest with
          | .error e => .error e
          | .ok l => .ok (if b then row :: l else l)

/-- The operator strings tested by the `elif` chain of `apply_rules`. -/
def recognizedOps : List String :=
  ["older_than_days", "is_empty", "greater_than", "created_after_sprint_start",
   "word_count_greater_than", "word_count_less_than", "days_since_last_update",
   "contains_text", "fields_are_identical", "text_contains_regex"]

/-- Lines 193-196: `older_than_days`. -/
def opOlderThanDays (now : Int) (df : DataFrame) (r : Rule) : Except String (List (List Cell) × DataFrame) :=
  if r.field ∈ df.header then
    match intThreshold r with
    | .error e => .error e
    | .ok n =>
        match filterE (fun row => cellLtDate (getCellD df.header row r.field) (now - n)) df.rows with
        | .error e => .error e
        | .ok flagged => .ok (flagged, df)
  else .ok ([], df)

/-- Lines 197-198: `is_empty`. -/
def opIsEmpty (df : DataFrame) (r : Rule) : Except String (List (List Cell) × DataFrame) :=
  .ok (df.rows.filter (fun row => isEmptyCell (getCellD df.header row r.field)), df)

/-- Lines 199-201: `greater_than`.  The field column is re-assigned
its numeric coercion (this is the in-place mutation of the caller's
dataframe), then flagged rows are selected from the coerced data. -/
def opGreaterThan (df : DataFrame) (r : Rule) : Except String (List (List Cell) × DataFrame) :=
  match intThreshold r with
  | .error e => .error e
  | .ok t => .ok ((coerceNumericCol df r.field).rows.filter
      (fun row => cellNumGt (getCellD (coerceNumericCol df r.field).header row r.field) t),
      coerceNumericCol df r.field)

/-- Lines 202-204: `created_after_sprint_start` (sprint start is the
fixed `now - 5` days). -/
def opCreatedAfterSprintStart (now : Int) (df : DataFrame) (r : Rule) : Except String (List (List Cell) × DataFrame) :=
  match filterE (fun row => cellGtDate (getCellD df.header row r.field) (now - 5)) df.rows with
  | .error e => .error e
  | .ok flagged => .ok (flagged, df)

/-- Lines 205-206: `word_count_greater_than`. -/
def opWordCountGreaterThan (df : DataFrame) (r : Rule) : Except String (List (List Cell) × DataFrame) :=
  match intThreshold r with
  | .error e => .error e
  | .ok t => .ok (df.rows.filter (fun row => decide ((wordCount (cellToStr (getCellD df.header row r.field)) : Int) > t)), df)

/-- Lines 207-209: `word_count_less_than` (only non-empty cells are
candidates). -/
def opWordCountLessThan (df : DataFrame) (r : Rule) : Except String (List (List Cell) × DataFrame) :=
  match intThreshold r with
  | .error e => .error e
  | .ok t => .ok ((df.rows.filter (fun row =>
      notna (getCellD df.header row r.field) && (strTrim (cellToStr (getCellD df.header row r.field)) ≠ ""))).filter
        (fun row => decide ((wordCount (cellToStr (getCellD df.header row r.field)) : Int) < t)), df)

/-- Lines 210-214: `days_since_last_update` (rows with `Status` equal
to `"In Progress"`, then the date cutoff). -/
def opDaysSinceLastUpdate (now : Int) (df : DataFrame) (r : Rule) : Except String (List (List Cell) × DataFrame) :=
  if "Status" ∈ df.header ∧ r.field ∈ df.header then
    match intThreshold r with
    | .error e => .error e
    | .ok n =>
        match filterE (fun row => cellLtDate (getCellD df.header row r.field) (now - n))
            (df.rows.filter (fun row => cellEqStr (getCellD df.header row "Status") "In Progress")) with
        | .error e => .error e
        | .ok flagged => .ok (flagged, df)
  else .ok ([], df)

/-- Lines 215-216: `contains_text` (`str.contains` with its `regex=True`
default and `case=False`). -/
def opContainsText (df : DataFrame) (r : Rule) : Except String (List (List Cell) × DataFrame) :=
  match getThr r with
  | .error e => .error e
  | .ok v => .ok (df.rows.filter (fun row =>
      reSearch (strLower (jvalToStr v)) (strLower (cellToStr (getCellD df.header row r.field)))), df)

/-- Lines 217-224: `fields_are_identical`. -/
def opFieldsAreIdentical (df : DataFrame) (r : Rule) : Except String (List (List Cell) × DataFrame) :=
  match getThr r with
  | .error e => .error e
  | .ok (.jstr target) =>
      if r.field ∈ df.header ∧ target ∈ df.header then
        .ok (df.rows.filter (fun row =>
          notna (getCellD df.header row r.field) && notna (getCellD df.header row target) &&
          (strTrim (cellToStr (getCellD df.header row r.field)) = strTrim (cellToStr (getCellD df.header row target)))), df)
      else .ok ([], df)
  | .ok _ => .ok ([], df)

/-- Lines 225-230: `text_contains_regex` (`'|'.join` of the lowercased
keywords used as a regex against the lowercased text). -/
def opTextContainsRegex (df : DataFrame) (r : Rule) : Except String (List (List Cell) × DataFrame) :=
  match getThr r with
  | .error e => .error e
  | .ok v =>
      match lowerKeywords v with
      | .error e => .error e
      | .ok ks =>
          .ok (df.rows.filter (fun row =>
            reSearch ⟨joinBar (ks.map String.data)⟩
              (strLower (cellToStr (getCellD df.header row r.field)))), df)

/-- The per-rule `elif` chain of `apply_rules` (lines 190-230 of
`src/agile_tool.py`), reached after the field-availability check.
Returns the flagged rows together with the dataframe as left behind by
the branch (only `greater_than` re-assigns a column).  An unrecognized
operator falls through every branch and leaves `flagged_rows` empty. -/
def evalRuleBody (now : Int) (df : DataFrame) (r : Rule) : Except String (List (List Cell) × DataFrame) :=
  if r.op = "older_than_days" then opOlderThanDays now df r
  else if r.op = "is_empty" then opIsEmpty df r
  else if r.op = "greater_than" then opGreaterThan df r
  else if r.op = "created_after_sprint_start" then opCreatedAfterSprintStart now df r
  else if r.op = "word_count_greater_than" then opWordCountGreaterThan df r
  else if r.op = "word_count_less_than" then opWordCountLessThan df r
  else if r.op = "days_since_last_update" then opDaysSinceLastUpdate now df r
  else if r.op = "contains_text" then opContainsText df r
  else if r.op = "fields_are_identical" then opFieldsAreIdentical df r
  else if r.op = "text_contains_regex" then opTextContainsRegex df r
  else .ok ([], df)

/-- One iteration of the rule loop, including the field-availability
check at lines 183-188: an absent `field` skips the rule, except that
a `days_since_last_update` rule with `Status` present still reaches
the body (whose own guard then leaves it unmatched). -/
def evalRule (now : Int) (df : DataFrame) (r : Rule) : Except String (List (List Cell) × DataFrame) :=
  if r.field ∈ df.header then evalRuleBody now df r
  else if r.op = "days_since_last_update" then
    if "Status" ∈ df.header then evalRuleBody now df r else .ok ([], df)
  else .ok ([], df)

/-- The violation dict appended for one flagged row. -/
def mkViolation (header : List String) (r : Rule) (row : List Cell) : Violation :=
  { issueKey := rowGetD header row "Issue Key" (.str "Unknown")
    summary := rowGetD header row "Summary" (.str "Unknown")
    antiPattern := r.name
    category := r.category
    severity := r.severity
    reason := r.description
    remedy := r.remedy }

/-- The rule loop of `apply_rules`: rules in catalog order, one block
of violations per rule in flagged-row order, the dataframe threaded
through (so a column re-assigned by one rule is what later rules
read), an uncaught exception aborting the remainder. -/
def runRules (now : Int) (df : DataFrame) : List Rule → Except String (List Violation × DataFrame)
  | [] => .ok ([], df)
  | r :: rest =>
      match evalRule now df r with
      | .error e => .error e
      | .ok (flagged, df2) =>
          match runRules now df2 rest with
          | .error e => .error e
          | .ok (vs, df3) => .ok (flagged.map (mkViolation df2.header r) ++ vs, df3)

/-- `apply_rules(df, rules_json)`: parse the well-known date columns
in place, then evaluate every rule of `anti_patterns` in order.
`dparse` abstracts `pd.to_datetime`'s text parser and `now` the
ambient `datetime.now()`.  The returned dataframe is the caller's
dataframe as the call leaves it (the source mutates it in place). -/
def apply_rules (dparse : String → Option Int) (now : Int) (df : DataFrame) (rules : List Rule) :
    Except String (List Violation × DataFrame) :=
  runRules now (parseDates dparse df) rules

/-- A trivial date parser used for concrete inputs whose date cells
are already datetime-typed. -/
def dparse0 : String → Option Int := fun _ => none

def exceptIsOk : Except String (List Violation × DataFrame) → Bool
  | .ok _ => true
  | .error _ => false

/-! ### Auxiliary predicates used in the statements -/

/-- `l` contains no `|` character. -/
def noBar : List Char → Bool
  | [] => true
  | c :: cs => if c = '|' then false else noBar cs

/-- `l` contains no `.` character. -/
def noDot : List Char → Bool
  | [] => true
  | c :: cs => if c = '.' then false else noDot cs

/-- Python regex metacharacters: the characters `re` treats specially
in a pattern (wildcard, anchors, quantifiers, classes, groups, escape,
alternation). -/
def regexMeta (c : Char) : Bool :=
  c = '.' || c = '^' || c = '$' || c = '*' || c = '+' || c = '?' ||
  c = '\x7b' || c = '\x7d' || c = '[' || c = ']' || c = '\\' || c = '|' || c = '(' || c = ')'

/-- `l` contains no Python regex metacharacter, so `re` matches it
exactly as a literal string. -/
def noMeta : List Char → Bool
  | [] => true
  | c :: cs => if regexMeta c then false else noMeta cs

/-- A cell a date-typed column can hold: a datetime or NaT. -/
def isDateLike : Cell → Bool
  | .date _ => true
  | .missing => true
  | _ => false

/-- The spec-side reading of `days_since_last_update` on one cell: the
cell is a date strictly earlier than the cutoff (missing or non-date
cells never match). -/
def dateBefore (cutoff : Int) (c : Cell) : Bool :=
  match c with
  | .date d => decide (d < cutoff)
  | _ => false

/-- The spec-side reading of `greater_than` on one original cell: its
numeric coercion yields a value strictly greater than `t`; an
uncoercible or missing cell never matches. -/
def gtMatches (t : Int) (c : Cell) : Bool :=
  cellNumGt (toNumCell c) t

/-- `r.threshold` is a number. -/
def numThr : Option JVal → Bool
  | some (.jnum _) => true
  | _ => false

/-! ### Concrete fixtures used by counterexamples and witnesses -/

/-- A catalog entry with fixed descriptive fields. -/
def mkRule (idv nm fieldName opName : String) (thr : Option JVal) : Rule :=
  { id := idv, name := nm, category := "Cat", severity := "High",
    description := "desc", remedy := "fix", field := fieldName, op := opName, threshold := thr }

/-- The violation such a rule emits for a row with the given key and summary. -/
def mkViol (key summ : Cell) (nm : String) : Violation :=
  ⟨key, summ, nm, "Cat", "High", "desc", "fix"⟩

def dfStory : DataFrame := ⟨["Issue Key", "Story Points"], [[.str "K1", .str "abc"]]⟩
def dfStoryCoerced : DataFrame := ⟨["Issue Key", "Story Points"], [[.str "K1", .missing]]⟩
def ruleGT13 : Rule := mkRule "SP-01" "Oversized Item" "Story Points" "greater_than" (some (.jnum 13))
def ruleCTabc : Rule := mkRule "CT-01" "Mentions abc" "Story Points" "contains_text" (some (.jstr "abc"))
def vCTabc : Violation := mkViol (.str "K1") (.str "Unknown") "Mentions abc"

def ruleOldBad : Rule := mkRule "BP-01" "Zombie Tickets" "Updated" "older_than_days" (some (.jstr "ninety"))
def ruleEmptySum : Rule := mkRule "BP-02" "Empty Summary" "Summary" "is_empty" (some (.jnum 0))
def dfUpdSum : DataFrame := ⟨["Updated", "Summary"], [[.date 5, .str ""]]⟩
def vEmptySum : Violation := mkViol (.str "Unknown") (.str "") "Empty Summary"

def ruleEmptyAC : Rule := mkRule "BP-03" "Missing Criteria" "Acceptance Criteria" "is_empty" (some (.jnum 0))
def ruleHard : Rule := mkRule "SP-03" "Hardening Sprint" "Sprint" "contains_text" (some (.jstr "Hardening"))
def dfTwo : DataFrame :=
  ⟨["Issue Key", "Acceptance Criteria", "Sprint"],
   [[.str "K1", .str "", .str "Sprint 10 Hardening"],
    [.str "K2", .str " ", .str "Hardening phase"]]⟩
def vAC1 : Violation := mkViol (.str "K1") (.str "Unknown") "Missing Criteria"
def vAC2 : Violation := mkViol (.str "K2") (.str "Unknown") "Missing Criteria"
def vHard1 : Violation := mkViol (.str "K1") (.str "Unknown") "Hardening Sprint"
def vHard2 : Violation := mkViol (.str "K2") (.str "Unknown") "Hardening Sprint"

def ruleRegexDot : Rule := mkRule "SP-04" "Keyword Scan" "Sprint" "text_contains_regex" (some (.jlist [.astr "a.c"]))
def dfSprintAbc : DataFrame := ⟨["Sprint"], [[.str "abc"]]⟩
def vRegexDot : Violation := mkViol (.str "Unknown") (.str "Unknown") "Keyword Scan"

def ruleCTxz : Rule := mkRule "CT-02" "Mentions xz" "Summary" "contains_text" (some (.jstr "x.z"))
def dfXyz : DataFrame := ⟨["Summary"], [[.str "xyz"]]⟩
def vCTxz : Violation := mkViol (.str "Unknown") (.str "xyz") "Mentions xz"

def dfPoints : DataFrame := ⟨["Story Points"], [[.int 13], [.int 14], [.str "abc"], [.int 20]]⟩
def ruleStag : Rule := mkRule "SP-02" "Stagnant Work" "Updated" "days_since_last_update" (some (.jnum 5))
def dfStatus : DataFrame := ⟨["Status", "Updated"], [[.str "In Progress", .date (-10)], [.str "Done", .date (-10)]]⟩
def ruleWC0 : Rule := mkRule "WC-01" "Wordy" "Description" "word_count_greater_than" (some (.jnum 0))
def dfDesc : DataFrame := ⟨["Description"], [[.missing]]⟩
def ruleFrob : Rule := mkRule "X-01" "Weird" "Sprint" "frobnicate" (some (.jnum 1))
def ruleKw : Rule := mkRule "SP-03b" "Keywords" "Sprint" "text_contains_regex" (some (.jlist (["Hardening", "Cleanup"].map .astr)))

/-! ### Frame lemmas: which dataframe each step leaves behind -/

theorem mapCol_header (df : DataFrame) (name : String) (f : Cell → Cell) :
    (mapCol df name f).header = df.header := by
  unfold mapCol
  split <;> rfl

theorem parseDatesStep_header (dparse : String → Option Int) (d : DataFrame) (col : String) :
    (if col ∈ d.header then mapCol d col (toDateCell dparse) else d).header = d.header := by
  split
  · exact mapCol_header d col (toDateCell dparse)
  · rfl

theorem parseDates_header (dparse : String → Option Int) (df : DataFrame) :
    (parseDates dparse df).header = df.header := by
  unfold parseDates
  rw [List.foldl_cons, List.foldl_cons, List.foldl_cons, List.foldl_nil]
  rw [parseDatesStep_header, parseDatesStep_header, parseDatesStep_header]

theorem colIdx_of_mem {header : List String} {name : String} (h : name ∈ header) :
    ∃ i, colIdx header name = some i := by
  cases hc : colIdx header name with
  | some i => exact ⟨i, rfl⟩
  | none =>
      unfold colIdx at hc
      rw [List.findIdx?_eq_none_iff] at hc
      exact absurd (hc name h) (by simp)

theorem opOlderThanDays_frame (now : Int) (df : DataFrame) (r : Rule) (out : List (List Cell) × DataFrame)
    (h : opOlderThanDays now df r = .ok out) : out.2 = df := by
  delta opOlderThanDays at h
  repeat' split at h
  all_goals first
    | (injection h with h; rw [← h])
    | injection h

theorem opIsEmpty_frame (df : DataFrame) (r : Rule) (out : List (List Cell) × DataFrame)
    (h : opIsEmpty df r = .ok out) : out.2 = df := by
  delta opIsEmpty at h
  injection h with h; rw [← h]

theorem opGreaterThan_frame (df : DataFrame) (r : Rule) (out : List (List Cell) × DataFrame)
    (h : opGreaterThan df r = .ok out) : out.2 = coerceNumericCol df r.field := by
  delta opGreaterThan at h
  repeat' split at h
  all_goals first
    | (injection h with h; rw [← h])
    | injection h

theorem opCreatedAfterSprintStart_frame (now : Int) (df : DataFrame) (r : Rule) (out : List (List Cell) × DataFrame)
    (h : opCreatedAfterSprintStart now df r = .ok out) : out.2 = df := by
  delta opCreatedAfterSprintStart at h
  repeat' split at h
  all_goals first
    | (injection h with h; rw [← h])
    | injection h

theorem opWordCountGreaterThan_frame (df : DataFrame) (r : Rule) (out : List (List Cell) × DataFrame)
    (h : opWordCountGreaterThan df r = .ok out) : out.2 = df := by
  delta opWordCountGreaterThan at h
  repeat' split at h
  all_goals first
    | (injection h with h; rw [← h])
    | injection h

theorem opWordCountLessThan_frame (df : DataFrame) (r : Rule) (out : List (List Cell) × DataFrame)
    (h : opWordCountLessThan df r = .ok out) : out.2 = df := by
  delta opWordCountLessThan at h
  repeat' split at h
  all_goals first
    | (injection h with h; rw [← h])
    | injection h

theorem opDaysSinceLastUpdate_frame (now : Int) (df : DataFrame) (r : Rule) (out : List (List Cell) × DataFrame)
    (h : opDaysSinceLastUpdate now df r = .ok out) : out.2 = df := by
  delta opDaysSinceLastUpdate at h
  repeat' split at h
  all_goals first
    | (injection h with h; rw [← h])
    | injection h

theorem opContainsText_frame (df : DataFrame) (r : Rule) (out : List (List Cell) × DataFrame)
    (h : opContainsText df r = .ok out) : out.2 = df := by
  delta opContainsText at h
  repeat' split at h
  all_goals first
    | (injection h with h; rw [← h])
    | injection h

theorem opFieldsAreIdentical_frame (df : DataFrame) (r : Rule) (out : List (List Cell) × DataFrame)
    (h : opFieldsAreIdentical df r = .ok out) : out.2 = df := by
  delta opFieldsAreIdentical at h
  repeat' split at h
  all_goals first
    | (injection h with h; rw [← h])
    | injection h

theorem opTextContainsRegex_frame (df : DataFrame) (r : Rule) (out : List (List Cell) × DataFrame)
    (h : opTextContainsRegex df r = .ok out) : out.2 = df := by
  delta opTextContainsRegex at h
  repeat' split at h
  all_goals first
    | (injection h with h; rw [← h])
    | injection h

theorem evalRuleBody_header (now : Int) (df : DataFrame) (r : Rule)
    (out : List (List Cell) × DataFrame) (h : evalRuleBody now df r = .ok out) :
    out.2.header = df.header := by
  delta evalRuleBody at h
  repeat' split at h
  · rw [opOlderThanDays_frame now df r out h]
  · rw [opIsEmpty_frame df r out h]
  · rw [opGreaterThan_frame df r out h]
    exact mapCol_header df r.field toNumCell
  · rw [opCreatedAfterSprintStart_frame now df r out h]
  · rw [opWordCountGreaterThan_frame df r out h]
  · rw [opWordCountLessThan_frame df r out h]
  · rw [opDaysSinceLastUpdate_frame now df r out h]
  · rw [opContainsText_frame df r out h]
  · rw [opFieldsAreIdentical_frame df r out h]
  · rw [opTextContainsRegex_frame df r out h]
  · injection h with h; rw [← h]

theorem evalRule_header (now : Int) (df : DataFrame) (r : Rule)
    (out : List (List Cell) × DataFrame) (h : evalRule now df r = .ok out) :
    out.2.header = df.header := by
  delta evalRule at h
  repeat' split at h
  · exact evalRuleBody_header now df r out h
  · exact evalRuleBody_header now df r out h
  · injection h with h; rw [← h]
  · injection h with h; rw [← h]

/-! ### Dispatch and skip lemmas -/

theorem evalRuleBody_unknown (now : Int) (df : DataFrame) (r : Rule)
    (hop : r.op ∉ recognizedOps) : evalRuleBody now df r = .ok ([], df) := by
  simp only [recognizedOps, List.mem_cons, not_or, List.mem_singleton] at hop
  obtain ⟨h1, h2, h3, h4, h5, h6, h7, h8, h9, h10, -⟩ := hop
  simp [evalRuleBody, h1, h2, h3, h4, h5, h6, h7, h8, h9, h10]

theorem evalRule_unknown (now : Int) (df : DataFrame) (r : Rule)
    (hop : r.op ∉ recognizedOps) : evalRule now df r = .ok ([], df) := by
  have hbody := evalRuleBody_unknown now df r hop
  unfold evalRule
  split
  · exact hbody
  · split
    · split
      · exact hbody
      · rfl
    · rfl

theorem evalRuleBody_older (now : Int) (df : DataFrame) (r : Rule)
    (hop : r.op = "older_than_days") : evalRuleBody now df r = opOlderThanDays now df r := by
  simp [evalRuleBody, hop]

theorem evalRuleBody_gt (now : Int) (df : DataFrame) (r : Rule)
    (hop : r.op = "greater_than") : evalRuleBody now df r = opGreaterThan df r := by
  simp [evalRuleBody, hop]

theorem evalRuleBody_wcgt (now : Int) (df : DataFrame) (r : Rule)
    (hop : r.op = "word_count_greater_than") : evalRuleBody now df r = opWordCountGreaterThan df r := by
  simp [evalRuleBody, hop]

theorem evalRuleBody_dslu (now : Int) (df : DataFrame) (r : Rule)
    (hop : r.op = "days_since_last_update") : evalRuleBody now df r = opDaysSinceLastUpdate now df r := by
  simp [evalRuleBody, hop]

theorem evalRuleBody_ct (now : Int) (df : DataFrame) (r : Rule)
    (hop : r.op = "contains_text") : evalRuleBody now df r = opContainsText df r := by
  simp [evalRuleBody, hop]

theorem evalRuleBody_tcr (now : Int) (df : DataFrame) (r : Rule)
    (hop : r.op = "text_contains_regex") : evalRuleBody now df r = opTextContainsRegex df r := by
  simp [evalRuleBody, hop]

theorem evalRule_of_mem (now : Int) (df : DataFrame) (r : Rule)
    (hf : r.field ∈ df.header) : evalRule now df r = evalRuleBody now df r := by
  unfold evalRule
  rw [if_pos hf]

theorem evalRule_absent (now : Int) (df : DataFrame) (r : Rule)
    (h : r.field ∉ df.header ∨ (r.op = "days_since_last_update" ∧ "Status" ∉ df.header)) :
    evalRule now df r = .ok ([], df) := by
  have hbody_dslu : r.op = "days_since_last_update" →
      ("Status" ∉ df.header ∨ r.field ∉ df.header) → evalRuleBody now df r = .ok ([], df) := by
    intro hop hmiss
    rw [evalRuleBody_dslu now df r hop]
    unfold opDaysSinceLastUpdate
    rcases hmiss with hs | hf
    · rw [if_neg (fun hc => hs hc.1)]
    · rw [if_neg (fun hc => hf hc.2)]
  unfold evalRule
  rcases h with hf | ⟨hop, hs⟩
  · rw [if_neg hf]
    split
    · next hop2 =>
        split
        · exact hbody_dslu hop2 (Or.inr hf)
        · rfl
    · rfl
  · split
    · exact hbody_dslu hop (Or.inl hs)
    · rfl

/-! ### Rule-loop lemmas -/

theorem runRules_skip_of (now : Int) (r : Rule) (H : List String)
    (hskip : ∀ d : DataFrame, d.header = H → evalRule now d r = .ok ([], d)) :
    ∀ (pre : List Rule) (d : DataFrame), d.header = H → ∀ post,
      runRules now d (pre ++ r :: post) = runRules now d (pre ++ post) := by
  intro pre
  induction pre with
  | nil =>
      intro d hd post
      simp only [List.nil_append, runRules, hskip d hd, List.map_nil]
      cases hr : runRules now d post with
      | error e => rfl
      | ok x =>
          obtain ⟨vs, d3⟩ := x
          simp
  | cons p ps ih =>
      intro d hd post
      cases he : evalRule now d p with
      | error e => simp only [List.cons_append, runRules, he]
      | ok x =>
          obtain ⟨fl, d2⟩ := x
          have hx : d2.header = H := by
            have := evalRule_header now d p (fl, d2) he
            rw [← hd]
            exact this
          simp only [List.cons_append, runRules, he, List.append_eq]
          rw [ih d2 hx post]

theorem runRules_error_of (now : Int) (r : Rule) (H : List String)
    (herr : ∀ d : DataFrame, d.header = H → ∃ e, evalRule now d r = .error e) :
    ∀ (pre : List Rule) (d : DataFrame), d.header = H → ∀ rest,
      exceptIsOk (runRules now d (pre ++ r :: rest)) = false := by
  intro pre
  induction pre with
  | nil =>
      intro d hd rest
      obtain ⟨e, he⟩ := herr d hd
      simp only [List.nil_append, runRules, he]
      rfl
  | cons p ps ih =>
      intro d hd rest
      cases he : evalRule now d p with
      | error e => simp only [List.cons_append, runRules, he]; rfl
      | ok x =>
          obtain ⟨fl, d2⟩ := x
          have hx : d2.header = H := by
            have := evalRule_header now d p (fl, d2) he
            rw [← hd]
            exact this
          have hrec := ih d2 hx rest
          simp only [List.cons_append, runRules, he, List.append_eq]
          cases hr : runRules now d2 (ps ++ r :: rest) with
          | error e => rfl
          | ok y =>
              rw [hr] at hrec
              exact absurd hrec (by simp [exceptIsOk])

/-! ### Effectful-filter lemmas -/

theorem filterE_sublist {p : List Cell → Except String Bool} :
    ∀ {l ys : List (List Cell)}, filterE p l = .ok ys → List.Sublist ys l := by
  intro l
  induction l with
  | nil =>
      intro ys h
      injection h with h
      rw [← h]
  | cons a as ih =>
      intro ys h
      rw [filterE] at h
      cases hpa : p a with
      | error e => rw [hpa] at h; exact absurd h (by simp)
      | ok b =>
          rw [hpa] at h
          cases hrec : filterE p as with
          | error e => rw [hrec] at h; exact absurd h (by simp)
          | ok l2 =>
              rw [hrec] at h
              injection h with h
              cases b with
              | false =>
                  simp only [Bool.false_eq_true, if_false] at h
                  rw [← h]
                  exact List.Sublist.cons a (ih hrec)
              | true =>
                  simp only [if_true] at h
                  rw [← h]
                  exact List.Sublist.cons₂ a (ih hrec)

theorem filterE_eq_filter {p : List Cell → Except String Bool} {f : List Cell → Bool} :
    ∀ {l : List (List Cell)}, (∀ a ∈ l, p a = .ok (f a)) → filterE p l = .ok (l.filter f) := by
  intro l
  induction l with
  | nil => intro _; rfl
  | cons a as ih =>
      intro hl
      rw [filterE, hl a (List.mem_cons_self a as), ih (fun b hb => hl b (List.mem_cons_of_mem a hb)),
        List.filter_cons]

/-! ### Regular-expression fragment lemmas -/

theorem splitBar_noBar : ∀ l : List Char, noBar l = true → splitBar l = [l] := by
  intro l
  induction l with
  | nil => intro _; rfl
  | cons c cs ih =>
      intro h
      rw [noBar] at h
      by_cases hc : c = '|'
      · rw [if_pos hc] at h
        exact absurd h (by simp)
      · rw [if_neg hc] at h
        rw [splitBar, if_neg hc, ih h]

theorem splitBar_append : ∀ p rest : List Char, noBar p = true →
    splitBar (p ++ '|' :: rest) = p :: splitBar rest := by
  intro p
  induction p with
  | nil =>
      intro rest _
      rw [List.nil_append, splitBar, if_pos rfl]
  | cons c cs ih =>
      intro rest h
      rw [noBar] at h
      by_cases hc : c = '|'
      · rw [if_pos hc] at h
        exact absurd h (by simp)
      · rw [if_neg hc] at h
        rw [List.cons_append, splitBar, if_neg hc, ih rest h]

theorem splitBar_joinBar : ∀ parts : List (List Char), parts ≠ [] →
    (∀ p ∈ parts, noBar p = true) → splitBar (joinBar parts) = parts := by
  intro parts
  induction parts with
  | nil => intro h; exact absurd rfl h
  | cons p ps ih =>
      intro _ hbar
      cases ps with
      | nil =>
          rw [joinBar]
          exact splitBar_noBar p (hbar p (List.mem_cons_self p []))
      | cons q qs =>
          rw [joinBar, splitBar_append p _ (hbar p (List.mem_cons_self p (q :: qs)))]
          rw [ih (by simp) (fun x hx => hbar x (List.mem_cons_of_mem p hx))]

theorem noMeta_noBar : ∀ l : List Char, noMeta l = true → noBar l = true := by
  intro l
  induction l with
  | nil => intro _; rfl
  | cons c cs ih =>
      intro h
      rw [noMeta] at h
      by_cases hc : regexMeta c = true
      · rw [if_pos hc] at h
        exact absurd h (by simp)
      · rw [if_neg hc] at h
        have hcb : ¬(c = '|') := fun hcc => hc (by rw [hcc]; decide)
        rw [noBar, if_neg hcb, ih h]

theorem noMeta_noDot : ∀ l : List Char, noMeta l = true → noDot l = true := by
  intro l
  induction l with
  | nil => intro _; rfl
  | cons c cs ih =>
      intro h
      rw [noMeta] at h
      by_cases hc : regexMeta c = true
      · rw [if_pos hc] at h
        exact absurd h (by simp)
      · rw [if_neg hc] at h
        have hcd : ¬(c = '.') := fun hcc => hc (by rw [hcc]; decide)
        rw [noDot, if_neg hcd, ih h]

theorem rxAccept_noDot : ∀ p : List Char, noDot p = true → ∀ t, rxAccept p t = litAccept p t := by
  intro p
  induction p with
  | nil => intro _ t; cases t <;> rfl
  | cons c cs ih =>
      intro h t
      rw [noDot] at h
      by_cases hc : c = '.'
      · rw [if_pos hc] at h
        exact absurd h (by simp)
      · rw [if_neg hc] at h
        cases t with
        | nil => rfl
        | cons a as =>
            rw [rxAccept, litAccept, ih h as]
            have : (c = '.' : Bool) = false := by
              simp [hc]
            rw [this, Bool.false_or]

theorem rxSearch_noDot (p : List Char) (hp : noDot p = true) :
    ∀ t, rxSearch p t = litSearch p t := by
  intro t
  induction t with
  | nil => rw [rxSearch, litSearch, rxAccept_noDot p hp]
  | cons a as ih => rw [rxSearch, litSearch, rxAccept_noDot p hp, ih]

theorem reSearch_single (S text : String) (hbar : noBar S.data = true) (hdot : noDot S.data = true) :
    reSearch S text = litSearch S.data text.data := by
  unfold reSearch
  rw [splitBar_noBar S.data hbar]
  rw [List.any_cons, List.any_nil, Bool.or_false, rxSearch_noDot S.data hdot]

theorem any_map_data (ks : List String) (p : List Char → Bool) :
    (ks.map String.data).any p = ks.any (fun k => p k.data) := by
  induction ks with
  | nil => rfl
  | cons k kt ih => rw [List.map_cons, List.any_cons, List.any_cons, ih]

theorem reSearch_join (ks : List String) (text : String) (hne : ks ≠ [])
    (hbar : ∀ k ∈ ks, noBar k.data = true) :
    reSearch ⟨joinBar (ks.map String.data)⟩ text = ks.any (fun k => rxSearch k.data text.data) := by
  unfold reSearch
  have hdata : (String.mk (joinBar (ks.map String.data))).data = joinBar (ks.map String.data) := rfl
  rw [hdata, splitBar_joinBar (ks.map String.data) (by simpa using hne)
    (by intro x hx; obtain ⟨k, hk, hkx⟩ := List.mem_map.mp hx; rw [← hkx]; exact hbar k hk)]
  rw [any_map_data]

/-! ### Row-order lemmas: flagged rows are an order-preserving
selection of the dataframe's rows -/

theorem opOlderThanDays_sublist (now : Int) (df : DataFrame) (r : Rule)
    (out : List (List Cell) × DataFrame) (h : opOlderThanDays now df r = .ok out) :
    List.Sublist out.1 out.2.rows := by
  delta opOlderThanDays at h
  repeat' split at h
  all_goals
    first
      | (injection h with h
         rw [← h]
         first
           | exact List.nil_sublist _
           | exact filterE_sublist (by assumption))
      | injection h

theorem opIsEmpty_sublist (df : DataFrame) (r : Rule)
    (out : List (List Cell) × DataFrame) (h : opIsEmpty df r = .ok out) :
    List.Sublist out.1 out.2.rows := by
  delta opIsEmpty at h
  injection h with h
  rw [← h]
  exact List.filter_sublist _

theorem opGreaterThan_sublist (df : DataFrame) (r : Rule)
    (out : List (List Cell) × DataFrame) (h : opGreaterThan df r = .ok out) :
    List.Sublist out.1 out.2.rows := by
  delta opGreaterThan at h
  repeat' split at h
  all_goals
    first
      | (injection h with h
         rw [← h]
         exact List.filter_sublist _)
      | injection h

theorem opCreatedAfterSprintStart_sublist (now : Int) (df : DataFrame) (r : Rule)
    (out : List (List Cell) × DataFrame) (h : opCreatedAfterSprintStart now df r = .ok out) :
    List.Sublist out.1 out.2.rows := by
  delta opCreatedAfterSprintStart at h
  repeat' split at h
  all_goals
    first
      | (injection h with h
         rw [← h]
         exact filterE_sublist (by assumption))
      | injection h

theorem opWordCountGreaterThan_sublist (df : DataFrame) (r : Rule)
    (out : List (List Cell) × DataFrame) (h : opWordCountGreaterThan df r = .ok out) :
    List.Sublist out.1 out.2.rows := by
  delta opWordCountGreaterThan at h
  repeat' split at h
  all_goals
    first
      | (injection h with h
         rw [← h]
         exact List.filter_sublist _)
      | injection h

theorem opWordCountLessThan_sublist (df : DataFrame) (r : Rule)
    (out : List (List Cell) × DataFrame) (h : opWordCountLessThan df r = .ok out) :
    List.Sublist out.1 out.2.rows := by
  delta opWordCountLessThan at h
  repeat' split at h
  all_goals
    first
      | (injection h with h
         rw [← h]
         exact List.Sublist.trans (List.filter_sublist _) (List.filter_sublist _))
      | injection h

theorem opDaysSinceLastUpdate_sublist (now : Int) (df : DataFrame) (r : Rule)
    (out : List (List Cell) × DataFrame) (h : opDaysSinceLastUpdate now df r = .ok out) :
    List.Sublist out.1 out.2.rows := by
  delta opDaysSinceLastUpdate at h
  repeat' split at h
  all_goals
    first
      | (injection h with h
         rw [← h]
         first
           | exact List.nil_sublist _
           | exact List.Sublist.trans (filterE_sublist (by assumption)) (List.filter_sublist _))
      | injection h

theorem opContainsText_sublist (df : DataFrame) (r : Rule)
    (out : List (List Cell) × DataFrame) (h : opContainsText df r = .ok out) :
    List.Sublist out.1 out.2.rows := by
  delta opContainsText at h
  repeat' split at h
  all_goals
    first
      | (injection h with h
         rw [← h]
         exact List.filter_sublist _)
      | injection h

theorem opFieldsAreIdentical_sublist (df : DataFrame) (r : Rule)
    (out : List (List Cell) × DataFrame) (h : opFieldsAreIdentical df r = .ok out) :
    List.Sublist out.1 out.2.rows := by
  delta opFieldsAreIdentical at h
  repeat' split at h
  all_goals
    first
      | (injection h with h
         rw [← h]
         first
           | exact List.nil_sublist _
           | exact List.filter_sublist _)
      | injection h

theorem opTextContainsRegex_sublist (df : DataFrame) (r : Rule)
    (out : List (List Cell) × DataFrame) (h : opTextContainsRegex df r = .ok out) :
    List.Sublist out.1 out.2.rows := by
  delta opTextContainsRegex at h
  repeat' split at h
  all_goals
    first
      | (injection h with h
         rw [← h]
         exact List.filter_sublist _)
      | injection h

theorem evalRuleBody_sublist (now : Int) (df : DataFrame) (r : Rule)
    (out : List (List Cell) × DataFrame) (h : evalRuleBody now df r = .ok out) :
    List.Sublist out.1 out.2.rows := by
  delta evalRuleBody at h
  repeat' split at h
  · exact opOlderThanDays_sublist now df r out h
  · exact opIsEmpty_sublist df r out h
  · exact opGreaterThan_sublist df r out h
  · exact opCreatedAfterSprintStart_sublist now df r out h
  · exact opWordCountGreaterThan_sublist df r out h
  · exact opWordCountLessThan_sublist df r out h
  · exact opDaysSinceLastUpdate_sublist now df r out h
  · exact opContainsText_sublist df r out h
  · exact opFieldsAreIdentical_sublist df r out h
  · exact opTextContainsRegex_sublist df r out h
  · injection h with h
    rw [← h]
    exact List.nil_sublist _

theorem evalRule_sublist (now : Int) (df : DataFrame) (r : Rule)
    (out : List (List Cell) × DataFrame) (h : evalRule now df r = .ok out) :
    List.Sublist out.1 out.2.rows := by
  delta evalRule at h
  repeat' split at h
  all_goals
    first
      | exact evalRuleBody_sublist now df r out h
      | (injection h with h; rw [← h]; exact List.nil_sublist _)

/-! ### Threshold and column-access lemmas -/

theorem intThreshold_num (r : Rule) (t : Int) (h : r.threshold = some (.jnum t)) :
    intThreshold r = .ok t := by
  unfold intThreshold getThr
  rw [h]

theorem intThreshold_err (r : Rule) (h : numThr r.threshold = false) :
    ∃ e, intThreshold r = .error e := by
  cases hth : r.threshold with
  | none => exact ⟨"KeyError: threshold", by unfold intThreshold getThr; rw [hth]⟩
  | some v =>
      cases v with
      | jnum n =>
          rw [hth] at h
          exact absurd h (by simp [numThr])
      | jstr s =>
          exact ⟨"TypeError: threshold is not a number", by unfold intThreshold getThr; rw [hth]⟩
      | jlist l =>
          exact ⟨"TypeError: threshold is not a number", by unfold intThreshold getThr; rw [hth]⟩

theorem lowerAtoms_map : ∀ ks : List String, lowerAtoms (ks.map .astr) = .ok (ks.map strLower) := by
  intro ks
  induction ks with
  | nil => rfl
  | cons k kt ih => simp [lowerAtoms, ih]

theorem getCellD_eq (header : List String) (row : List Cell) (name : String) (i : Nat)
    (hi : colIdx header name = some i) : getCellD header row name = row.getD i .missing := by
  unfold getCellD
  rw [hi]

theorem coerceNumericCol_rows (df : DataFrame) (name : String) (i : Nat)
    (hi : colIdx df.header name = some i) :
    (coerceNumericCol df name).rows =
      df.rows.map (fun row => row.set i (toNumCell (row.getD i .missing))) := by
  unfold coerceNumericCol mapCol
  rw [hi]

theorem getD_set_self {l : List Cell} {i : Nat} {a d : Cell} (h : i < l.length) :
    (l.set i a).getD i d = a := by
  rw [List.getD_eq_getElem?_getD, List.getElem?_set_self h]
  rfl

theorem colIdx_lt_length {header : List String} {name : String} {i : Nat}
    (h : colIdx header name = some i) : i < header.length := by
  unfold colIdx at h
  exact (List.findIdx?_eq_some_iff_findIdx_eq.mp h).1

theorem any_comp_map {α β : Type} (f : α → β) (p : β → Bool) (l : List α) :
    (l.map f).any p = l.any (fun a => p (f a)) := by
  induction l with
  | nil => rfl
  | cons a as ih => rw [List.map_cons, List.any_cons, List.any_cons, ih]

theorem any_congr_mem {α : Type} {l : List α} {p q : α → Bool} (h : ∀ a ∈ l, p a = q a) :
    l.any p = l.any q := by
  induction l with
  | nil => rfl
  | cons a as ih =>
      rw [List.any_cons, List.any_cons, h a (List.mem_cons_self a as),
        ih (fun b hb => h b (List.mem_cons_of_mem a hb))]

/-! ### The claims -/

/-- C1: the claim states that `apply_rules` never mutates the caller's
dataset as observed after the call, and that a coercion performed for
one rule never changes what a later rule reads.  The code violates
this: on a dataset whose `Story Points` column holds the text `"abc"`,
a `greater_than` rule re-assigns the column in place
(`df[field] = pd.to_numeric(df[field], errors='coerce')`), so after
the call the caller's cell has become missing, and a following
`contains_text "abc"` rule in the same call — which flags the row when
run on the pristine dataset — no longer sees the text and flags
nothing. -/
theorem c1_mutation_observed :
    apply_rules dparse0 0 dfStory [ruleGT13, ruleCTabc] = .ok ([], dfStoryCoerced) ∧
    dfStoryCoerced ≠ dfStory ∧
    apply_rules dparse0 0 dfStory [ruleCTabc] = .ok ([vCTabc], dfStory) :=
  ⟨rfl, by decide, rfl⟩

/-- C2 counterexample: the claim states that a rule with a
wrong-shaped threshold matches no rows while every other rule is still
evaluated and no error is raised.  On a catalog holding an
`older_than_days` rule with a string threshold followed by an
`is_empty` rule that matches a row, the code instead raises
(`timedelta(days=...)` on a non-number) and the whole evaluation
aborts: the second rule's violation — produced when that rule is run
alone — is never emitted. -/
theorem c2_counterexample :
    apply_rules dparse0 100 dfUpdSum [ruleOldBad, ruleEmptySum] =
      .error "TypeError: threshold is not a number" ∧
    apply_rules dparse0 100 dfUpdSum [ruleEmptySum] = .ok ([vEmptySum], dfUpdSum) :=
  ⟨rfl, rfl⟩

/-- C2 amended: an `older_than_days` rule whose `field` column exists
but whose threshold is missing or not a number makes `apply_rules`
raise, aborting the whole evaluation wherever the rule sits in the
catalog; no violation list is returned.  (Only unrecognized operators
and absent field columns degrade to a silent skip.) -/
theorem c2_amended_thm (dparse : String → Option Int) (now : Int) (df : DataFrame) (r : Rule)
    (pre rest : List Rule) (hop : r.op = "older_than_days") (hf : r.field ∈ df.header)
    (hbad : numThr r.threshold = false) :
    exceptIsOk (apply_rules dparse now df (pre ++ r :: rest)) = false := by
  unfold apply_rules
  refine runRules_error_of now r df.header ?_ pre (parseDates dparse df) (parseDates_header dparse df) rest
  intro d hd
  obtain ⟨e, he⟩ := intThreshold_err r hbad
  refine ⟨e, ?_⟩
  rw [evalRule_of_mem now d r (by rw [hd]; exact hf), evalRuleBody_older now d r hop]
  unfold opOlderThanDays
  rw [if_pos (by rw [hd]; exact hf), he]

/-- C2 witness: the amended statement at the concrete counterexample
input. -/
theorem c2_amended_witness :
    ruleOldBad.op = "older_than_days" ∧ ruleOldBad.field ∈ dfUpdSum.header ∧
    numThr ruleOldBad.threshold = false ∧
    exceptIsOk (apply_rules dparse0 100 dfUpdSum ([] ++ ruleOldBad :: [ruleEmptySum])) = false :=
  ⟨rfl, by decide, rfl,
    c2_amended_thm dparse0 100 dfUpdSum ruleOldBad [] [ruleEmptySum] rfl (by decide) rfl⟩

/-- C3: a rule whose operator is not one of the recognized operator
strings, with its field column present, contributes nothing and raises
nothing: evaluating the catalog with the rule equals evaluating the
catalog with the rule removed, so every other rule is still evaluated
exactly as before. -/
theorem c3_unknown_operator (dparse : String → Option Int) (now : Int) (df : DataFrame)
    (pre post : List Rule) (r : Rule) (hop : r.op ∉ recognizedOps)
    (_hf : r.field ∈ df.header) :
    apply_rules dparse now df (pre ++ r :: post) = apply_rules dparse now df (pre ++ post) := by
  unfold apply_rules
  exact runRules_skip_of now r (parseDates dparse df).header
    (fun d _ => evalRule_unknown now d r hop) pre (parseDates dparse df) rfl post

/-- C3 witness: a `frobnicate` rule amid a one-rule catalog. -/
theorem c3_witness :
    ruleFrob.op ∉ recognizedOps ∧ ruleFrob.field ∈ dfSprintAbc.header ∧
    apply_rules dparse0 0 dfSprintAbc ([] ++ ruleFrob :: [ruleRegexDot]) =
      apply_rules dparse0 0 dfSprintAbc ([] ++ [ruleRegexDot]) :=
  ⟨by decide, by decide,
    c3_unknown_operator dparse0 0 dfSprintAbc [] [ruleRegexDot] ruleFrob (by decide) (by decide)⟩

/-- C4: a rule whose field column is absent contributes zero
violations and does not raise; for a `days_since_last_update` rule the
same holds whenever either the field column or the `Status` column is
absent.  In both cases evaluating the catalog with the rule equals
evaluating it with the rule removed. -/
theorem c4_missing_column (dparse : String → Option Int) (now : Int) (df : DataFrame)
    (pre post : List Rule) (r : Rule)
    (h : r.field ∉ df.header ∨ (r.op = "days_since_last_update" ∧ "Status" ∉ df.header)) :
    apply_rules dparse now df (pre ++ r :: post) = apply_rules dparse now df (pre ++ post) := by
  unfold apply_rules
  refine runRules_skip_of now r df.header ?_ pre (parseDates dparse df) (parseDates_header dparse df) post
  intro d hd
  apply evalRule_absent
  rcases h with hf | ⟨hop, hs⟩
  · exact Or.inl (by rw [hd]; exact hf)
  · exact Or.inr ⟨hop, by rw [hd]; exact hs⟩

/-- C4 witness: a `days_since_last_update` rule on a dataset without a
`Status` column. -/
theorem c4_witness :
    (ruleStag.field ∉ dfUpdSum.header ∨
      (ruleStag.op = "days_since_last_update" ∧ "Status" ∉ dfUpdSum.header)) ∧
    apply_rules dparse0 0 dfUpdSum ([] ++ ruleStag :: [ruleEmptySum]) =
      apply_rules dparse0 0 dfUpdSum ([] ++ [ruleEmptySum]) :=
  ⟨Or.inr ⟨rfl, by decide⟩,
    c4_missing_column dparse0 0 dfUpdSum [] [ruleEmptySum] ruleStag (Or.inr ⟨rfl, by decide⟩)⟩

/-- C5: the violation sequence is ordered by (rule position, row
position): every rule's flagged rows are an order-preserving selection
of the dataset's rows (first conjunct), and on a catalog of two rules
each matching both rows of a two-row dataset the four violations come
out as (rule 1, row 1), (rule 1, row 2), (rule 2, row 1),
(rule 2, row 2) (second conjunct). -/
theorem c5_ordering :
    (∀ (now : Int) (d : DataFrame) (r : Rule) (out : List (List Cell) × DataFrame),
        evalRule now d r = .ok out → List.Sublist out.1 out.2.rows) ∧
    apply_rules dparse0 0 dfTwo [ruleEmptyAC, ruleHard] =
      .ok ([vAC1, vAC2, vHard1, vHard2], dfTwo) :=
  ⟨evalRule_sublist, rfl⟩

/-- C5 witness: the order statement instantiated at an `is_empty` rule
flagging both rows of the two-row dataset. -/
theorem c5_witness :
    evalRule 0 dfTwo ruleEmptyAC = .ok (dfTwo.rows, dfTwo) ∧
    List.Sublist dfTwo.rows dfTwo.rows :=
  ⟨rfl, c5_ordering.1 0 dfTwo ruleEmptyAC (dfTwo.rows, dfTwo) rfl⟩

/-- C6 counterexample: the claim states a `text_contains_regex` rule
flags exactly the rows whose lowercased text contains one of the
lowercased keywords as a literal substring.  With keyword list
`["a.c"]` the code flags the row `"abc"` (the keywords are joined into
a regex, so `.` matches any character) although `"a.c"` is not a
literal substring of `"abc"`. -/
theorem c6_counterexample :
    apply_rules dparse0 0 dfSprintAbc [ruleRegexDot] = .ok ([vRegexDot], dfSprintAbc) ∧
    litContains "abc" "a.c" = false :=
  ⟨rfl, by decide⟩

/-- C6 amended: the keywords are joined with `|` and matched as a
regular expression, so regex metacharacters keep their special
meaning; for a non-empty keyword list free of regex metacharacters
(`noMeta`, which also confines the compiled pattern to the literal
fragment on which the regex embedding is exact) this coincides with
the claimed case-insensitive literal-substring OR. -/
theorem c6_amended_thm (now : Int) (df : DataFrame) (r : Rule) (ks : List String)
    (hop : r.op = "text_contains_regex")
    (hthr : r.threshold = some (.jlist (ks.map .astr)))
    (hf : r.field ∈ df.header)
    (hne : ks ≠ [])
    (hmeta : ks.all (fun k => noMeta (strLower k).data) = true) :
    evalRule now df r = .ok
      (df.rows.filter (fun row =>
        ks.any (fun k => litContains (cellToStr (getCellD df.header row r.field)) k)), df) := by
  have hgt : getThr r = .ok (.jlist (ks.map .astr)) := by unfold getThr; rw [hthr]
  have hlk : lowerKeywords (.jlist (ks.map .astr)) = .ok (ks.map strLower) := by
    unfold lowerKeywords
    exact lowerAtoms_map ks
  have hm := List.all_eq_true.mp hmeta
  rw [evalRule_of_mem now df r hf, evalRuleBody_tcr now df r hop]
  unfold opTextContainsRegex
  simp only [hgt, hlk]
  have hfe : ∀ row ∈ df.rows,
      reSearch ⟨joinBar ((ks.map strLower).map String.data)⟩
        (strLower (cellToStr (getCellD df.header row r.field))) =
      ks.any (fun k => litContains (cellToStr (getCellD df.header row r.field)) k) := by
    intro row _
    rw [reSearch_join (ks.map strLower) _ (by simpa using hne) ?hbar]
    case hbar =>
      intro k' hk'
      obtain ⟨k, hk, hkk⟩ := List.mem_map.mp hk'
      rw [← hkk]
      exact noMeta_noBar _ (hm k hk)
    rw [any_comp_map strLower _ ks]
    apply any_congr_mem
    intro k hk
    rw [rxSearch_noDot (strLower k).data (noMeta_noDot _ (hm k hk))]
    rfl
  rw [List.filter_congr hfe]

/-- C6 witness: the spec's Sprint example, keywords `["Hardening",
"Cleanup"]` on a two-row dataset flagged case-insensitively. -/
theorem c6_witness :
    (["Hardening", "Cleanup"] ≠ ([] : List String)) ∧
    (["Hardening", "Cleanup"].all (fun k => noMeta (strLower k).data) = true) ∧
    evalRule 0 dfTwo ruleKw = .ok
      (dfTwo.rows.filter (fun row =>
        ["Hardening", "Cleanup"].any (fun k =>
          litContains (cellToStr (getCellD dfTwo.header row "Sprint")) k)), dfTwo) :=
  ⟨by decide, by decide,
    c6_amended_thm 0 dfTwo ruleKw ["Hardening", "Cleanup"] rfl rfl (by decide) (by decide) (by decide)⟩

/-- C7 counterexample: the claim states `contains_text` is a literal
substring match with regex metacharacters meaning only themselves.
With threshold `"x.z"` the code flags the row `"xyz"`
(`str.contains` defaults to `regex=True`, so `.` matches any
character) although `"x.z"` is not a literal substring of `"xyz"`. -/
theorem c7_counterexample :
    apply_rules dparse0 0 dfXyz [ruleCTxz] = .ok ([vCTxz], dfXyz) ∧
    litContains "xyz" "x.z" = false :=
  ⟨rfl, by decide⟩

/-- C7 amended: the threshold is matched as a case-insensitive regex
search; for a threshold free of regex metacharacters (`noMeta`, which
also confines the compiled pattern to the literal fragment on which
the regex embedding is exact) this coincides with the claimed
case-insensitive literal-substring containment. -/
theorem c7_amended_thm (now : Int) (df : DataFrame) (r : Rule) (S : String)
    (hop : r.op = "contains_text") (hthr : r.threshold = some (.jstr S))
    (hf : r.field ∈ df.header)
    (hmeta : noMeta (strLower S).data = true) :
    evalRule now df r = .ok
      (df.rows.filter (fun row =>
        litContains (cellToStr (getCellD df.header row r.field)) S), df) := by
  have hgt : getThr r = .ok (.jstr S) := by unfold getThr; rw [hthr]
  rw [evalRule_of_mem now df r hf, evalRuleBody_ct now df r hop]
  unfold opContainsText
  simp only [hgt, jvalToStr]
  have hfe : ∀ row ∈ df.rows,
      reSearch (strLower S) (strLower (cellToStr (getCellD df.header row r.field))) =
      litContains (cellToStr (getCellD df.header row r.field)) S := by
    intro row _
    rw [reSearch_single (strLower S) _ (noMeta_noBar _ hmeta) (noMeta_noDot _ hmeta)]
    rfl
  rw [List.filter_congr hfe]

/-- C7 witness: metacharacter-free threshold `"Hardening"` behaves as
a case-insensitive literal substring test. -/
theorem c7_witness :
    (noMeta (strLower "Hardening").data = true) ∧
    evalRule 0 dfTwo ruleHard = .ok
      (dfTwo.rows.filter (fun row =>
        litContains (cellToStr (getCellD dfTwo.header row "Sprint")) "Hardening"), dfTwo) :=
  ⟨by decide,
    c7_amended_thm 0 dfTwo ruleHard "Hardening" rfl rfl (by decide) (by decide)⟩

/-- C8: a `greater_than` rule with numeric threshold `t` coerces the
field column to numeric (unparsable cells become missing) and flags
exactly the rows whose coerced value is strictly greater than `t`; a
missing value never satisfies the comparison (`gtMatches`), and the
flagged rows are reported in their coerced form. -/
theorem c8_greater_than (now : Int) (df : DataFrame) (r : Rule) (t : Int)
    (hop : r.op = "greater_than") (hthr : r.threshold = some (.jnum t))
    (hf : r.field ∈ df.header) (hwf : dfWF df = true) :
    ∃ i, colIdx df.header r.field = some i ∧
      evalRule now df r = .ok
        ((df.rows.filter (fun row => gtMatches t (row.getD i .missing))).map
            (fun row => row.set i (toNumCell (row.getD i .missing))),
          coerceNumericCol df r.field) := by
  obtain ⟨i, hi⟩ := colIdx_of_mem hf
  refine ⟨i, hi, ?_⟩
  rw [evalRule_of_mem now df r hf, evalRuleBody_gt now df r hop]
  unfold opGreaterThan
  simp only [intThreshold_num r t hthr]
  rw [show (coerceNumericCol df r.field).header = df.header from mapCol_header df r.field toNumCell]
  rw [coerceNumericCol_rows df r.field i hi]
  rw [List.filter_map]
  have hpt : ∀ row ∈ df.rows,
      ((fun row => cellNumGt (getCellD df.header row r.field) t) ∘
        (fun row => row.set i (toNumCell (row.getD i .missing)))) row =
      gtMatches t (row.getD i .missing) := by
    intro row hrow
    have hlen : i < row.length := by
      have h1 := colIdx_lt_length hi
      have h2 := List.all_eq_true.mp hwf row hrow
      have h3 : row.length = df.header.length := by simpa using h2
      rw [h3]
      exact h1
    simp only [Function.comp_apply]
    rw [getCellD_eq df.header _ r.field i hi, getD_set_self hlen]
    rfl
  rw [List.filter_congr hpt]

/-- C8 witness: the spec's example, `Story Points` holding
`[13, 14, "abc", 20]` with threshold 13: exactly the rows 14 and 20
are flagged, the non-numeric cell is excluded. -/
theorem c8_witness :
    ruleGT13.field ∈ dfPoints.header ∧ dfWF dfPoints = true ∧
    (∃ i, colIdx dfPoints.header ruleGT13.field = some i ∧
      evalRule 0 dfPoints ruleGT13 = .ok
        ((dfPoints.rows.filter (fun row => gtMatches 13 (row.getD i .missing))).map
            (fun row => row.set i (toNumCell (row.getD i .missing))),
          coerceNumericCol dfPoints ruleGT13.field)) ∧
    (dfPoints.rows.filter (fun row => gtMatches 13 (row.getD 0 .missing))).map
        (fun row => row.set 0 (toNumCell (row.getD 0 .missing))) = [[.int 14], [.int 20]] :=
  ⟨by decide, by decide,
    c8_greater_than 0 dfPoints ruleGT13 13 rfl rfl (by decide) (by decide),
    by decide⟩

/-- C9: a `days_since_last_update` rule with numeric threshold `n`,
with both its field and a `Status` column present and the field column
date-typed, flags exactly the rows whose `Status` cell equals exactly
`"In Progress"` and whose field date is strictly earlier than
`now − n` days. -/
theorem c9_days_since (now : Int) (df : DataFrame) (r : Rule) (n : Int)
    (hop : r.op = "days_since_last_update") (hthr : r.threshold = some (.jnum n))
    (hs : "Status" ∈ df.header) (hf : r.field ∈ df.header)
    (hdate : df.rows.all (fun row => isDateLike (getCellD df.header row r.field)) = true) :
    evalRule now df r = .ok
      (df.rows.filter (fun row =>
        cellEqStr (getCellD df.header row "Status") "In Progress" &&
        dateBefore (now - n) (getCellD df.header row r.field)), df) := by
  have hd := List.all_eq_true.mp hdate
  rw [evalRule_of_mem now df r hf, evalRuleBody_dslu now df r hop]
  unfold opDaysSinceLastUpdate
  rw [if_pos ⟨hs, hf⟩]
  simp only [intThreshold_num r n hthr]
  have hfe : filterE (fun row => cellLtDate (getCellD df.header row r.field) (now - n))
      (df.rows.filter (fun row => cellEqStr (getCellD df.header row "Status") "In Progress")) =
      .ok ((df.rows.filter (fun row => cellEqStr (getCellD df.header row "Status") "In Progress")).filter
        (fun row => dateBefore (now - n) (getCellD df.header row r.field))) := by
    apply filterE_eq_filter
    intro a ha
    have ha2 : a ∈ df.rows := List.mem_of_mem_filter ha
    have hda := hd a ha2
    cases hcell : getCellD df.header a r.field with
    | date d2 => rfl
    | missing => rfl
    | str s => rw [hcell] at hda; exact absurd hda (by simp [isDateLike])
    | int m => rw [hcell] at hda; exact absurd hda (by simp [isDateLike])
  simp only [hfe]
  rw [List.filter_filter]
  have hcomm : ∀ a ∈ df.rows,
      (dateBefore (now - n) (getCellD df.header a r.field) &&
        cellEqStr (getCellD df.header a "Status") "In Progress") =
      (cellEqStr (getCellD df.header a "Status") "In Progress" &&
        dateBefore (now - n) (getCellD df.header a r.field)) :=
    fun a _ => Bool.and_comm _ _
  rw [List.filter_congr hcomm]

/-- C9 witness: the spec's example with `now = 0` and threshold 5: the
row with `Status = "In Progress"` updated 10 days ago is flagged; the
otherwise identical row with `Status = "Done"` is not. -/
theorem c9_witness :
    "Status" ∈ dfStatus.header ∧ ruleStag.field ∈ dfStatus.header ∧
    (dfStatus.rows.all (fun row => isDateLike (getCellD dfStatus.header row ruleStag.field)) = true) ∧
    evalRule 0 dfStatus ruleStag = .ok
      (dfStatus.rows.filter (fun row =>
        cellEqStr (getCellD dfStatus.header row "Status") "In Progress" &&
        dateBefore (0 - 5) (getCellD dfStatus.header row ruleStag.field)), dfStatus) ∧
    dfStatus.rows.filter (fun row =>
        cellEqStr (getCellD dfStatus.header row "Status") "In Progress" &&
        dateBefore (0 - 5) (getCellD dfStatus.header row ruleStag.field)) =
      [[.str "In Progress", .date (-10)]] :=
  ⟨by decide, by decide, by decide,
    c9_days_since 0 dfStatus ruleStag 5 rfl rfl (by decide) (by decide) (by decide),
    by decide⟩

/-- C10: a `word_count_greater_than` rule with numeric threshold `n`
renders every cell to text first (`astype(str)`), so a missing cell
becomes the literal text `"nan"`, which counts as one word: a row with
a missing cell is not excluded and is flagged exactly when `1 > n`. -/
theorem c10_word_count_nan (now : Int) (df : DataFrame) (r : Rule) (n : Int)
    (hop : r.op = "word_count_greater_than") (hthr : r.threshold = some (.jnum n))
    (hf : r.field ∈ df.header) :
    evalRule now df r = .ok
      (df.rows.filter (fun row =>
        decide ((wordCount (cellToStr (getCellD df.header row r.field)) : Int) > n)), df) ∧
    cellToStr .missing = "nan" ∧ wordCount "nan" = 1 := by
  refine ⟨?_, rfl, rfl⟩
  rw [evalRule_of_mem now df r hf, evalRuleBody_wcgt now df r hop]
  unfold opWordCountGreaterThan
  simp only [intThreshold_num r n hthr]

/-- C10 witness: threshold 0 on a one-row dataset whose only cell is
missing: the row is flagged (its `"nan"` rendering has one word). -/
theorem c10_witness :
    ruleWC0.field ∈ dfDesc.header ∧
    (evalRule 0 dfDesc ruleWC0 = .ok
      (dfDesc.rows.filter (fun row =>
        decide ((wordCount (cellToStr (getCellD dfDesc.header row ruleWC0.field)) : Int) > 0)), dfDesc) ∧
      cellToStr .missing = "nan" ∧ wordCount "nan" = 1) ∧
    dfDesc.rows.filter (fun row =>
        decide ((wordCount (cellToStr (getCellD dfDesc.header row ruleWC0.field)) : Int) > 0)) =
      [[.missing]] :=
  ⟨by decide, c10_word_count_nan 0 dfDesc ruleWC0 0 rfl rfl (by decide), by decide⟩
